import Mathlib

/-!
Verification development for the adaptive scoring, embedding cache and
similarity-search core of the `omnizap-system` CLIP classifier
(`src/ml/clip_classifier/`).

The Python modules are shallowly embedded:
* exact rational / real arithmetic stands in for IEEE floats
  (the guards of the source use explicit epsilons, so no claim here
  depends on rounding of individual operations);
* `dict`s become association lists or key-indexed functions;
* the MySQL-backed `EmbeddingStore` becomes a pure `Store` value whose
  tables hold the rows the SQL statements would produce, with the
  `enabled` fail-open flag modelled explicitly;
* external collaborators (the CLIP model, PIL decoding, `hashlib`,
  the OpenAI chat completion together with the stdlib JSON parse of its
  free-form text) are oracle parameters, documented at each use.
-/

namespace OmniZap

/-! ## Stable descending sort

`list.sort(key=…, reverse=True)` and `sorted(…, key=…, reverse=True)` in
Python are stable sorts, descending in the key: an element is placed
before the first element whose key is strictly smaller, so ties keep
their original order.  `sortDescKey` is that function. -/

/-- Insert `a` into `l` (assumed sorted by strictly descending key
precedence) before the first element with a strictly smaller key. -/
def insertDescKey {α β : Type} [LinearOrder β] (key : α → β) (a : α) :
    List α → List α
  | [] => [a]
  | b :: l => if key a < key b then b :: insertDescKey key a l else a :: b :: l

/-- Stable sort, descending by `key` — the model of Python
`sorted(l, key=key, reverse=True)`. -/
def sortDescKey {α β : Type} [LinearOrder β] (key : α → β) (l : List α) :
    List α :=
  l.foldr (insertDescKey key) []

theorem insertDescKey_perm {α β : Type} [LinearOrder β] (key : α → β)
    (a : α) (l : List α) : List.Perm (insertDescKey key a l) (a :: l) := by
  induction l with
  | nil => simp [insertDescKey]
  | cons b t ih =>
      by_cases h : key a < key b
      · simp only [insertDescKey, if_pos h]
        exact (ih.cons b).trans (List.Perm.swap a b t)
      · simp [insertDescKey, if_neg h]

theorem sortDescKey_perm {α β : Type} [LinearOrder β] (key : α → β)
    (l : List α) : List.Perm (sortDescKey key l) l := by
  induction l with
  | nil => simp [sortDescKey]
  | cons a t ih =>
      exact (insertDescKey_perm key a (sortDescKey key t)).trans (ih.cons a)

theorem mem_sortDescKey {α β : Type} [LinearOrder β] (key : α → β)
    (l : List α) (x : α) : x ∈ sortDescKey key l ↔ x ∈ l :=
  (sortDescKey_perm key l).mem_iff

theorem insertDescKey_pairwise {α β : Type} [LinearOrder β] (key : α → β)
    (a : α) (l : List α) (hl : l.Pairwise (fun x y => key y ≤ key x)) :
    (insertDescKey key a l).Pairwise (fun x y => key y ≤ key x) := by
  induction l with
  | nil => simp [insertDescKey]
  | cons b t ih =>
      rcases List.pairwise_cons.mp hl with ⟨hb, ht⟩
      by_cases h : key a < key b
      · simp only [insertDescKey, if_pos h]
        refine List.pairwise_cons.mpr ⟨?_, ih ht⟩
        intro x hx
        rcases List.mem_cons.mp ((insertDescKey_perm key a t).mem_iff.mp hx) with
          hx | hx
        · exact hx ▸ le_of_lt h
        · exact hb x hx
      · simp only [insertDescKey, if_neg h]
        refine List.pairwise_cons.mpr ⟨?_, hl⟩
        intro x hx
        rcases List.mem_cons.mp hx with hx | hx
        · exact hx ▸ le_of_not_lt h
        · exact le_trans (hb x hx) (le_of_not_lt h)

theorem sortDescKey_pairwise {α β : Type} [LinearOrder β] (key : α → β)
    (l : List α) :
    (sortDescKey key l).Pairwise (fun x y => key y ≤ key x) := by
  induction l with
  | nil => simp [sortDescKey]
  | cons a t ih => exact insertDescKey_pairwise key a _ ih

/-! ## `adaptive_scoring.py`

Score maps (`dict[str, float]`) are association lists in iteration
order; arithmetic is over any linear ordered field (`ℚ` for executable
instances, `ℝ` inside the classifier). -/

/-- Embedding of `adjusted_score`. -/
def adjusted_score {K : Type} [LinearOrderedField K]
    (clip_score affinity_weight alpha : K) : K :=
  clip_score * (1 + affinity_weight * alpha)

/-- The `1e-12` guard used by `apply_adaptive_scores` (and, in the
similarity engine, the lower clamp for row norms). -/
def eps12 {K : Type} [LinearOrderedField K] : K := 1 / 10 ^ 12

/-- Embedding of `apply_adaptive_scores`. -/
def apply_adaptive_scores {K : Type} [LinearOrderedField K]
    (base_scores : List (String × K)) (affinity_weight alpha : K) :
    List (String × K) :=
  if base_scores = [] then []
  else
    let boosted := base_scores.map fun p =>
      (p.1, adjusted_score p.2 affinity_weight alpha)
    let total : K := (boosted.map fun p => max 0 p.2).sum
    if total ≤ eps12 then boosted.map fun p => (p.1, (0 : K))
    else boosted.map fun p => (p.1, max 0 p.2 / total)

/-- Embedding of `top_k_items` (`sorted(items, key=score, reverse=True)[:max(1, k or 1)]`). -/
def top_k_items {K : Type} [LinearOrderedField K]
    (score_map : List (String × K)) (k : ℤ) : List (String × K) :=
  let safe_k := max 1 (if k = 0 then 1 else k)
  (sortDescKey (fun p => p.2) score_map).take safe_k.toNat

/-- Embedding of `confidence_margin`. -/
def confidence_margin {K : Type} [LinearOrderedField K]
    (items : List (String × K)) : K :=
  match items with
  | [] => 0
  | [x] => x.2
  | a :: b :: _ => a.2 - b.2

theorem sum_map_div {K : Type} [LinearOrderedField K]
    (l : List K) (c : K) : (l.map fun x => x / c).sum = l.sum / c := by
  induction l with
  | nil => simp
  | cons a t ih => simp [ih, add_div]

/-- The sum of the negatives-clamped boosted scores, as computed inside
`apply_adaptive_scores`. -/
def clampedTotal {K : Type} [LinearOrderedField K]
    (base_scores : List (String × K)) (affinity_weight alpha : K) : K :=
  (base_scores.map fun p => max 0 (adjusted_score p.2 affinity_weight alpha)).sum

theorem eps12_pos {K : Type} [LinearOrderedField K] : (0 : K) < eps12 := by
  unfold eps12; positivity

theorem apply_adaptive_scores_eq {K : Type} [LinearOrderedField K]
    (P : List (String × K)) (w a : K) :
    apply_adaptive_scores P w a =
      if P = [] then []
      else if clampedTotal P w a ≤ eps12 then P.map fun p => (p.1, (0 : K))
      else
        P.map fun p =>
          (p.1, max 0 (adjusted_score p.2 w a) / clampedTotal P w a) := by
  unfold apply_adaptive_scores clampedTotal
  simp only [List.map_map]
  rfl

/-- C1: for every non-empty base-score map `P`, affinity weight `w` and
alpha `a`, the values of `apply_adaptive_scores P w a` either all equal
`0` (exactly when the sum of the negatives-clamped boosted scores is
`≤ 1e-12`) or sum to `1`: each boosted score is clamped to be
non-negative, summed, and divided by that total. -/
theorem adaptive_scores_zero_or_one {K : Type} [LinearOrderedField K]
    (P : List (String × K)) (w a : K) (hne : P ≠ []) :
    (clampedTotal P w a ≤ eps12 ∧
        ∀ q ∈ apply_adaptive_scores P w a, q.2 = 0) ∨
    (eps12 < clampedTotal P w a ∧
        ((apply_adaptive_scores P w a).map Prod.snd).sum = 1) := by
  rw [apply_adaptive_scores_eq, if_neg hne]
  rcases le_or_lt (clampedTotal P w a) eps12 with hc | hc
  · left
    refine ⟨hc, ?_⟩
    rw [if_pos hc]
    intro q hq
    rcases List.mem_map.mp hq with ⟨p, _, hp⟩
    exact (congrArg Prod.snd hp).symm
  · right
    refine ⟨hc, ?_⟩
    rw [if_neg (not_le.mpr hc)]
    have hmm :
        ((P.map fun p =>
            (p.1, max 0 (adjusted_score p.2 w a) / clampedTotal P w a)).map
              Prod.snd).sum
          = ((P.map fun p => max 0 (adjusted_score p.2 w a)).map
              fun x => x / clampedTotal P w a).sum := by
      simp only [List.map_map]
      rfl
    rw [hmm, sum_map_div]
    exact div_self (ne_of_gt (lt_trans eps12_pos hc))

/-- Witness for C1 at the concrete map `{"x": 1}` over `ℚ`. -/
theorem adaptive_scores_zero_or_one_witness :
    (clampedTotal [("x", (1 : ℚ))] 0 0 ≤ eps12 ∧
        ∀ q ∈ apply_adaptive_scores [("x", (1 : ℚ))] 0 0, q.2 = 0) ∨
    (eps12 < clampedTotal [("x", (1 : ℚ))] 0 0 ∧
        ((apply_adaptive_scores [("x", (1 : ℚ))] 0 0).map Prod.snd).sum = 1) :=
  adaptive_scores_zero_or_one [("x", 1)] 0 0 (by simp)

/-- C2: on a base-score map with non-negative values whose sum beats the
epsilon guard, and `w ∈ [0,1]`, `a ≥ 0`, `apply_adaptive_scores` is
exactly the input renormalized by its own sum — independent of `w` and
`a`, so the uniform multiplicative boost cancels. -/
theorem adaptive_scores_uniform_boost_cancels {K : Type}
    [LinearOrderedField K] (P : List (String × K)) (w a : K)
    (hpos : ∀ p ∈ P, 0 ≤ p.2) (hsum : eps12 < (P.map Prod.snd).sum)
    (hw0 : 0 ≤ w) (_hw1 : w ≤ 1) (ha : 0 ≤ a) :
    apply_adaptive_scores P w a =
      P.map fun p => (p.1, p.2 / (P.map Prod.snd).sum) := by
  have hc0 : (0 : K) < 1 + w * a := by positivity
  have hc1 : (1 : K) ≤ 1 + w * a := by nlinarith
  have hne : P ≠ [] := by
    intro hP
    rw [hP] at hsum
    exact absurd (lt_trans eps12_pos hsum) (by simp)
  have hclamp : clampedTotal P w a = (P.map Prod.snd).sum * (1 + w * a) := by
    unfold clampedTotal adjusted_score
    have h1 : (P.map fun p => max 0 (p.2 * (1 + w * a)))
        = P.map fun p => p.2 * (1 + w * a) := by
      refine List.map_congr_left ?_
      intro p hp
      exact max_eq_right (mul_nonneg (hpos p hp) (le_of_lt hc0))
    rw [h1]
    have h2 : (P.map fun p => p.2 * (1 + w * a))
        = (P.map Prod.snd).map fun x => x * (1 + w * a) := by
      simp only [List.map_map]
      rfl
    rw [h2]
    induction (P.map Prod.snd) with
    | nil => simp
    | cons x t ih => simp [ih, add_mul]
  have hS0 : (0 : K) < (P.map Prod.snd).sum := lt_trans eps12_pos hsum
  have htot : eps12 < clampedTotal P w a := by
    rw [hclamp]
    calc eps12 < (P.map Prod.snd).sum := hsum
      _ ≤ (P.map Prod.snd).sum * (1 + w * a) :=
          le_mul_of_one_le_right (le_of_lt hS0) hc1
  rw [apply_adaptive_scores_eq, if_neg hne, if_neg (not_le.mpr htot)]
  refine List.map_congr_left ?_
  intro p hp
  have hmax : max 0 (adjusted_score p.2 w a) = p.2 * (1 + w * a) := by
    unfold adjusted_score
    exact max_eq_right (mul_nonneg (hpos p hp) (le_of_lt hc0))
  rw [hmax, hclamp, mul_div_mul_right _ _ (ne_of_gt hc0)]

/-- Witness for C2: the spec's concrete scenario — base scores
`{"cat": 0.7, "dog": 0.3}`, affinity weight `0.5`, alpha `0.4` —
renormalizes back to `{"cat": 0.7, "dog": 0.3}`. -/
theorem adaptive_scores_uniform_boost_cancels_witness :
    apply_adaptive_scores [("cat", (7 / 10 : ℚ)), ("dog", 3 / 10)]
        (1 / 2) (2 / 5)
      = [("cat", 7 / 10), ("dog", 3 / 10)] := by
  have hpos : ∀ p ∈ [("cat", (7 / 10 : ℚ)), ("dog", 3 / 10)], 0 ≤ p.2 := by
    intro p hp
    rcases List.mem_cons.mp hp with h | h
    · rw [h]; norm_num
    · rcases List.mem_cons.mp h with h | h
      · rw [h]; norm_num
      · simp at h
  have hone : (([("cat", (7 / 10 : ℚ)), ("dog", 3 / 10)]).map Prod.snd).sum
      = 1 := by
    simp
    norm_num
  have hsum : eps12
      < (([("cat", (7 / 10 : ℚ)), ("dog", 3 / 10)]).map Prod.snd).sum := by
    rw [hone]; unfold eps12; norm_num
  have h := adaptive_scores_uniform_boost_cancels
    [("cat", (7 / 10 : ℚ)), ("dog", 3 / 10)] (1 / 2) (2 / 5)
    hpos hsum (by norm_num) (by norm_num) (by norm_num)
  rw [h, hone]
  norm_num

/-! ## `embedding_store.py`

The MySQL tables become pure data: the image-embedding table is a list
in `updated_at DESC` order (an upsert moves the row to the front, as it
refreshes `updated_at`), the other tables are key-indexed functions.
Vector (de)serialization to `MEDIUMBLOB` float32 payloads is dropped:
rows store the vector itself.  The `enabled` flag models the fail-open
self-disabling switch (connection errors permanently clear it; the
model keeps it constant over a run, which matches any execution in
which no backend error occurs). -/

/-- Row of `clip_image_theme_feedback`. -/
structure FeedbackRecord where
  asset_id : Option String
  acceptance_count : ℕ
  total_assignments : ℕ

/-- Row of `clip_image_embedding_cache` (primary key `image_hash`). -/
structure StoredImage where
  image_hash : String
  asset_id : Option String
  model_name : String
  embedding : List ℝ

/-- Result row of `list_image_embeddings` (dataclass `SimilarImageRow`). -/
structure SimilarImageRow where
  image_hash : String
  asset_id : Option String
  embedding : List ℝ

/-- Values produced by Python `json.loads`. -/
inductive JValue where
  | str (s : String)
  | num (q : ℚ)
  | jbool (b : Bool)
  | null
  | arr (xs : List JValue)
  | obj (fields : List (String × JValue))

/-- A parsed JSON object (Python `dict` from `json.loads`). -/
abbrev JObj := List (String × JValue)

/-- Cache key of the LLM-expansion cache.  The source keys rows by
`sha256(json.dumps({"model": model, "labels": labels}))`; the digest is
modelled by the digested payload itself, which plays the same role of a
deterministic key of the `(model_name, top_labels)` pair. -/
abbrev LLMKey := String × List String

/-- Embedding of `EmbeddingStore`'s persisted state. -/
structure Store where
  enabled : Bool
  images : List StoredImage
  label_embs : String × String → Option (List ℝ)
  feedback : String × String → Option FeedbackRecord
  llm : LLMKey → Option JObj

/-- Embedding of `EmbeddingStore.get_image_embedding`. -/
def Store.get_image_embedding (st : Store) (image_hash model_name : String) :
    Option (List ℝ) :=
  if st.enabled = false ∨ image_hash = "" then none
  else
    (st.images.find? fun r =>
        r.image_hash == image_hash && r.model_name == model_name).map
      (·.embedding)

/-- Embedding of `EmbeddingStore.save_image_embedding`: an upsert on the
primary key `image_hash` that refreshes `updated_at`, hence moves the
row to the front of the recency order. -/
def Store.save_image_embedding (st : Store) (image_hash model_name : String)
    (embedding : List ℝ) (asset_id : Option String) : Store :=
  if st.enabled = false ∨ image_hash = "" then st
  else
    { st with
      images := ⟨image_hash, asset_id, model_name, embedding⟩ ::
        st.images.filter fun r => r.image_hash != image_hash }

/-- Embedding of `EmbeddingStore.get_label_embeddings` (the returned
`dict` is the partial map defined on the requested labels that have a
row). -/
def Store.get_label_embeddings (st : Store) (model_name : String)
    (labels : List String) : String → Option (List ℝ) :=
  fun l =>
    if st.enabled = false ∨ labels = [] then none
    else if l ∈ labels then st.label_embs (model_name, l) else none

/-- Embedding of `EmbeddingStore.save_label_embeddings` (batch upsert). -/
def Store.save_label_embeddings (st : Store) (model_name : String)
    (embeddings : List (String × List ℝ)) : Store :=
  if st.enabled = false ∨ embeddings.isEmpty = true then st
  else
    { st with
      label_embs := fun k =>
        if k.1 = model_name then
          match embeddings.find? fun p => p.1 == k.2 with
          | some p => some p.2
          | none => st.label_embs k
        else st.label_embs k }

/-- Embedding of `EmbeddingStore.list_image_embeddings`: up to
`max(50, min(limit or 3000, 20000))` most-recently-updated rows of the
model, rows with an empty hash skipped. -/
def Store.list_image_embeddings (st : Store) (model_name : String)
    (limit : ℤ) : List SimilarImageRow :=
  if st.enabled = false then []
  else
    let safe_limit := max 50 (min (if limit = 0 then 3000 else limit) 20000)
    ((st.images.filter fun r => r.model_name == model_name).take
        safe_limit.toNat).filterMap fun r =>
      if r.image_hash = "" then none
      else some ⟨r.image_hash, r.asset_id, r.embedding⟩

/-- Embedding of `EmbeddingStore.get_affinity_weight`. -/
def Store.get_affinity_weight (st : Store) (image_hash theme : String) : ℚ :=
  if st.enabled = false ∨ image_hash = "" ∨ theme = "" then 0
  else
    match st.feedback (image_hash, theme) with
    | none => 0
    | some r =>
        if r.total_assignments ≤ 0 then 0
        else (r.acceptance_count : ℚ) / r.total_assignments

/-- Embedding of `EmbeddingStore.record_feedback`: the
`INSERT … ON DUPLICATE KEY UPDATE` upsert-with-increment. -/
def Store.record_feedback (st : Store) (image_hash theme : String)
    (accepted : Bool) (asset_id : Option String) : Store :=
  if st.enabled = false ∨ image_hash = "" ∨ theme = "" then st
  else
    let inc : ℕ := if accepted then 1 else 0
    match st.feedback (image_hash, theme) with
    | none =>
        { st with
          feedback := fun k =>
            if k = (image_hash, theme) then some ⟨asset_id, inc, 1⟩
            else st.feedback k }
    | some r =>
        { st with
          feedback := fun k =>
            if k = (image_hash, theme) then
              some
                ⟨match asset_id with
                  | some x => some x
                  | none => r.asset_id,
                  r.acceptance_count + inc, r.total_assignments + 1⟩
            else st.feedback k }

/-- Embedding of `EmbeddingStore.get_llm_expansion` (reading back the
persisted `expansion_json`; the JSON round trip of a stored object
always reparses to itself). -/
def Store.get_llm_expansion (st : Store) (cache_key : LLMKey) :
    Option JObj :=
  if st.enabled = false then none else st.llm cache_key

/-- Embedding of `EmbeddingStore.save_llm_expansion` (upsert of the
serialized payload under `cache_key`; the `model_name` and
`top_labels_json` columns are never read back and are part of the
modelled key). -/
def Store.save_llm_expansion (st : Store) (cache_key : LLMKey)
    (payload : JObj) : Store :=
  if st.enabled = false then st
  else
    { st with
      llm := fun k => if k = cache_key then some payload else st.llm k }

/-! ## Feedback invariant (claim C3) -/

/-- One call of `register`-style feedback: the arguments of a
`record_feedback` invocation. -/
structure FeedbackOp where
  image_hash : String
  theme : String
  accepted : Bool
  asset_id : Option String

/-- Fold a sequence of `record_feedback` calls over a store. -/
def applyFeedback (st : Store) (ops : List FeedbackOp) : Store :=
  ops.foldl
    (fun s op => s.record_feedback op.image_hash op.theme op.accepted op.asset_id)
    st

theorem record_feedback_key_invariant (st : Store) (h t : String)
    (op : FeedbackOp)
    (hinv : ∀ r, st.feedback (h, t) = some r →
      r.acceptance_count ≤ r.total_assignments) :
    ∀ r,
      (st.record_feedback op.image_hash op.theme op.accepted
          op.asset_id).feedback (h, t) = some r →
        r.acceptance_count ≤ r.total_assignments := by
  intro r hr
  unfold Store.record_feedback at hr
  by_cases hguard :
      st.enabled = false ∨ op.image_hash = "" ∨ op.theme = ""
  · rw [if_pos hguard] at hr
    exact hinv r hr
  · rw [if_neg hguard] at hr
    rcases hfb : st.feedback (op.image_hash, op.theme) with _ | r0 <;>
      rw [hfb] at hr <;> simp only at hr
    · by_cases hk : ((h, t) : String × String) = (op.image_hash, op.theme)
      · rw [if_pos hk] at hr
        cases hr
        cases hacc : op.accepted <;> simp [hacc]
      · rw [if_neg hk] at hr
        exact hinv r hr
    · by_cases hk : ((h, t) : String × String) = (op.image_hash, op.theme)
      · rw [if_pos hk] at hr
        cases hr
        have h0 : r0.acceptance_count ≤ r0.total_assignments :=
          hinv r0 (by rw [hk]; exact hfb)
        cases hacc : op.accepted <;> simp <;> omega
      · rw [if_neg hk] at hr
        exact hinv r hr

theorem applyFeedback_key_invariant (ops : List FeedbackOp) (st : Store)
    (h t : String)
    (hinv : ∀ r, st.feedback (h, t) = some r →
      r.acceptance_count ≤ r.total_assignments) :
    ∀ r, (applyFeedback st ops).feedback (h, t) = some r →
      r.acceptance_count ≤ r.total_assignments := by
  induction ops generalizing st with
  | nil => exact hinv
  | cons op rest ih =>
      exact ih _ (record_feedback_key_invariant st h t op hinv)

theorem get_affinity_weight_range (st : Store) (h t : String)
    (hinv : ∀ r, st.feedback (h, t) = some r →
      r.acceptance_count ≤ r.total_assignments) :
    0 ≤ st.get_affinity_weight h t ∧ st.get_affinity_weight h t ≤ 1 := by
  unfold Store.get_affinity_weight
  by_cases hguard : st.enabled = false ∨ h = "" ∨ t = ""
  · rw [if_pos hguard]
    norm_num
  · rw [if_neg hguard]
    rcases hfb : st.feedback (h, t) with _ | r
    · norm_num
    · simp only
      by_cases htot : r.total_assignments ≤ 0
      · rw [if_pos htot]
        norm_num
      · rw [if_neg htot]
        have hne0 : r.total_assignments ≠ 0 := by omega
        have hpos : (0 : ℚ) < (r.total_assignments : ℚ) := by
          exact_mod_cast Nat.pos_of_ne_zero hne0
        constructor
        · positivity
        · rw [div_le_one hpos]
          exact_mod_cast hinv r hfb

/-- C3: starting from a store with no record for `(h, t)`, after any
finite sequence of `record_feedback` calls the stored record (if any)
satisfies `acceptance_count ≤ total_assignments`, `get_affinity_weight`
returns a value in `[0, 1]`, and it returns `0` when no record exists
or `total_assignments = 0`. -/
theorem feedback_affinity_weight_in_unit (st : Store) (ops : List FeedbackOp)
    (h t : String) (h0 : st.feedback (h, t) = none) :
    (∀ r, (applyFeedback st ops).feedback (h, t) = some r →
        r.acceptance_count ≤ r.total_assignments) ∧
    0 ≤ (applyFeedback st ops).get_affinity_weight h t ∧
    (applyFeedback st ops).get_affinity_weight h t ≤ 1 ∧
    ((applyFeedback st ops).feedback (h, t) = none →
        (applyFeedback st ops).get_affinity_weight h t = 0) ∧
    (∀ r, (applyFeedback st ops).feedback (h, t) = some r →
        r.total_assignments = 0 →
        (applyFeedback st ops).get_affinity_weight h t = 0) := by
  have hinv0 : ∀ r, st.feedback (h, t) = some r →
      r.acceptance_count ≤ r.total_assignments := by
    intro r hr
    rw [h0] at hr
    cases hr
  have hinv := applyFeedback_key_invariant ops st h t hinv0
  have hrange := get_affinity_weight_range (applyFeedback st ops) h t hinv
  refine ⟨hinv, hrange.1, hrange.2, ?_, ?_⟩
  · intro hnone
    unfold Store.get_affinity_weight
    by_cases hguard :
        (applyFeedback st ops).enabled = false ∨ h = "" ∨ t = ""
    · rw [if_pos hguard]
    · rw [if_neg hguard, hnone]
  · intro r hr htot
    unfold Store.get_affinity_weight
    by_cases hguard :
        (applyFeedback st ops).enabled = false ∨ h = "" ∨ t = ""
    · rw [if_pos hguard]
    · rw [if_neg hguard, hr]
      simp only
      rw [if_pos (by omega)]

/-- Witness for C3: one accepted feedback call on an empty enabled
store puts the affinity weight of the key inside `[0, 1]`. -/
theorem feedback_affinity_weight_in_unit_witness :
    0 ≤ (applyFeedback
        ⟨true, [], fun _ => none, fun _ => none, fun _ => none⟩
        [⟨"h", "t", true, none⟩]).get_affinity_weight "h" "t" ∧
    (applyFeedback
        ⟨true, [], fun _ => none, fun _ => none, fun _ => none⟩
        [⟨"h", "t", true, none⟩]).get_affinity_weight "h" "t" ≤ 1 := by
  have h := feedback_affinity_weight_in_unit
    ⟨true, [], fun _ => none, fun _ => none, fun _ => none⟩
    [⟨"h", "t", true, none⟩] "h" "t" rfl
  exact ⟨h.2.1, h.2.2.1⟩

/-! ## `similarity_engine.py` — vector math

`numpy` arrays are modelled by their shape data and a row list; only
2-D arrays have meaningful rows here (the engine builds nothing else,
and `cosine_similarity_matrix` rejects everything else up front). -/

/-- Shallow model of a `numpy` array: the number of dimensions, the
column count (`shape[1]` when 2-D) and the rows. -/
structure NDArray where
  ndim : ℕ
  ncols : ℕ
  rows : List (List ℝ)

/-- Dot product (`a @ b.T` entry). -/
noncomputable def dotList (xs ys : List ℝ) : ℝ :=
  (List.zipWith (fun x y => x * y) xs ys).sum

/-- Squared L2 norm of a row. -/
noncomputable def sumSq (xs : List ℝ) : ℝ := (xs.map fun x => x * x).sum

/-- Row L2 norm clamped below by `1e-12`
(`np.clip(np.linalg.norm(row), 1e-12, None)`). -/
noncomputable def clampedNorm (xs : List ℝ) : ℝ :=
  max (Real.sqrt (sumSq xs)) eps12

/-- L2-normalized row with the clamped norm (`row / clipped_norm`). -/
noncomputable def normalizeRow (xs : List ℝ) : List ℝ :=
  xs.map fun x => x / clampedNorm xs

/-- Cosine of two rows: dot product of their normalized forms. -/
noncomputable def pairCosine (q v : List ℝ) : ℝ :=
  dotList (normalizeRow q) (normalizeRow v)

/-- The success value of `cosine_similarity_matrix`:
`(a / norms_a) @ (b / norms_b).T`, row by row. -/
noncomputable def cosineRowsOf (a b : NDArray) : List (List ℝ) :=
  a.rows.map fun ra => b.rows.map fun rb => pairCosine ra rb

/-- Embedding of `cosine_similarity_matrix`.  The two `raise ValueError`
statements become the `Except.error` results; the `N×M` result keeps
shape `(a.rows.length, b.rows.length)`. -/
noncomputable def cosine_similarity_matrix (a b : NDArray) :
    Except String NDArray :=
  if a.ndim ≠ 2 ∨ b.ndim ≠ 2 then
    .error "cosine_similarity_matrix requires 2-D arrays"
  else if a.ncols ≠ b.ncols then .error "Embedding dimensions must match"
  else .ok ⟨2, b.rows.length, cosineRowsOf a b⟩

/-- C4: `cosine_similarity_matrix` fails (with the `DimensionMismatch`
condition, a `ValueError`) exactly when an input is not 2-dimensional
or the column counts differ; on conforming inputs it returns, without
failing, the matrix of dot products of the L2-row-normalized inputs
with norms clamped below by `1e-12`. -/
theorem cosine_similarity_matrix_dimension_check (a b : NDArray) :
    ((∃ msg, cosine_similarity_matrix a b = .error msg) ↔
      (a.ndim ≠ 2 ∨ b.ndim ≠ 2 ∨ a.ncols ≠ b.ncols)) ∧
    (a.ndim = 2 → b.ndim = 2 → a.ncols = b.ncols →
      cosine_similarity_matrix a b = .ok ⟨2, b.rows.length, cosineRowsOf a b⟩)
    := by
  unfold cosine_similarity_matrix
  by_cases h1 : a.ndim ≠ 2 ∨ b.ndim ≠ 2
  · rw [if_pos h1]
    constructor
    · constructor
      · intro _
        rcases h1 with h1 | h1
        · exact Or.inl h1
        · exact Or.inr (Or.inl h1)
      · intro _
        exact ⟨_, rfl⟩
    · intro ha hb _
      exact absurd h1 (by simp [ha, hb])
  · rw [if_neg h1]
    by_cases h2 : a.ncols ≠ b.ncols
    · rw [if_pos h2]
      constructor
      · constructor
        · intro _
          exact Or.inr (Or.inr h2)
        · intro _
          exact ⟨_, rfl⟩
      · intro _ _ hc
        exact absurd hc h2
    · rw [if_neg h2]
      constructor
      · constructor
        · rintro ⟨msg, hmsg⟩
          cases hmsg
        · intro hbad
          rcases hbad with hbad | hbad | hbad
          · exact absurd (Or.inl hbad) h1
          · exact absurd (Or.inr hbad) h1
          · exact absurd hbad h2
      · intro _ _ _
        rfl

/-- Witness for C4: two conforming `1×1` matrices produce the `.ok`
normalized dot-product matrix. -/
theorem cosine_similarity_matrix_dimension_check_witness :
    cosine_similarity_matrix ⟨2, 1, [[1]]⟩ ⟨2, 1, [[1]]⟩
      = .ok ⟨2, 1, cosineRowsOf ⟨2, 1, [[1]]⟩ ⟨2, 1, [[1]]⟩⟩ :=
  (cosine_similarity_matrix_dimension_check ⟨2, 1, [[1]]⟩ ⟨2, 1, [[1]]⟩).2
    rfl rfl rfl

/-! ## `similarity_engine.py` — `find_similar_images` -/

/-- Result entry of `find_similar_images`. -/
structure SimilarHit where
  image_hash : String
  asset_id : Option String
  similarity : ℝ

/-- Python `round(x, 6)` (round half to even on the 6th decimal). -/
noncomputable def roundHalfEven (x : ℝ) : ℤ :=
  let f := ⌊x⌋
  if x - f < 1 / 2 then f
  else if 1 / 2 < x - f then f + 1
  else if f % 2 = 0 then f else f + 1

/-- `round(float(score), 6)` as stored in a `SimilarHit`. -/
noncomputable def round6 (x : ℝ) : ℝ := (roundHalfEven (x * 10 ^ 6) : ℝ) / 10 ^ 6

/-- The final slice bound `max(1, min(int(limit or 25), 100))`; a zero
(or `None`) limit is falsy in Python and falls back to the default 25. -/
def pyLimitClamp (limit : ℤ) : ℕ :=
  (max 1 (min (if limit = 0 then 25 else limit) 100)).toNat

/-- Model of `np.asarray(vectors)` on a list of candidate embeddings: a
rectangular nonempty list is a 2-D array; anything else is not 2-D (a
ragged batch never reaches the dot product: `cosine_similarity_matrix`
rejects it). -/
def npAsMatrix (vectors : List (List ℝ)) : NDArray :=
  match vectors with
  | [] => ⟨1, 0, []⟩
  | v :: rest =>
      if rest.all fun w => w.length == v.length then ⟨2, v.length, vectors⟩
      else ⟨1, 0, vectors⟩

/-- Embedding of `find_similar_images`.  The `store` argument is read
through `list_image_embeddings` exactly as in the source; exceptions
escaping the matrix call surface as `Except.error`. -/
noncomputable def find_similar_images (store : Store)
    (image_embedding : List ℝ) (model_name : String) (threshold : ℝ)
    (limit : ℤ) (scan_limit : ℤ) (source_image_hash : Option String) :
    Except String (List SimilarHit) :=
  let rows := store.list_image_embeddings model_name scan_limit
  if rows.isEmpty = true then .ok []
  else
    let src := source_image_hash.getD ""
    let candidates := rows.filter fun row =>
      !((src != "") && (row.image_hash == src)) && (row.embedding.length != 0)
    let vectors := candidates.map fun row => row.embedding
    if candidates.isEmpty = true then .ok []
    else
      match cosine_similarity_matrix
          ⟨2, image_embedding.length, [image_embedding]⟩
          (npAsMatrix vectors) with
      | .error e => .error e
      | .ok m =>
          let scores := m.rows.flatten
          let hits := (candidates.zip scores).filterMap fun cs =>
            if cs.2 < threshold then none
            else some ⟨cs.1.image_hash, cs.1.asset_id, round6 cs.2⟩
          .ok ((sortDescKey (fun hit => hit.similarity) hits).take
            (pyLimitClamp limit))

theorem zip_map_self {α β : Type} (l : List α) (g : α → β) :
    l.zip (l.map g) = l.map fun a => (a, g a) := by
  induction l with
  | nil => rfl
  | cons a t ih => simp [ih]

/-- Characterization of a successful `find_similar_images` call: the
result is the clamped slice of the descending sort of the hit list, and
every hit corresponds to a surviving, threshold-passing candidate row. -/
theorem find_similar_images_ok_shape (store : Store) (q : List ℝ)
    (model : String) (thr : ℝ) (lim scan : ℤ) (src : Option String)
    (out : List SimilarHit)
    (hok : find_similar_images store q model thr lim scan src = .ok out) :
    ∃ hits : List SimilarHit,
      out = (sortDescKey (fun x => x.similarity) hits).take
          (pyLimitClamp lim) ∧
      ∀ e ∈ hits, ∃ row ∈ store.list_image_embeddings model scan,
        e.image_hash = row.image_hash ∧ e.asset_id = row.asset_id ∧
        row.embedding.length ≠ 0 ∧
        (src.getD "" ≠ "" → row.image_hash ≠ src.getD "") ∧
        ¬ pairCosine q row.embedding < thr ∧
        e.similarity = round6 (pairCosine q row.embedding) := by
  unfold find_similar_images at hok
  by_cases hrows :
      (store.list_image_embeddings model scan).isEmpty = true
  · rw [if_pos hrows] at hok
    cases hok
    exact ⟨[], by simp [sortDescKey], by simp⟩
  · rw [if_neg hrows] at hok
    simp only at hok
    set rows := store.list_image_embeddings model scan with hrows_def
    set srcs := src.getD "" with hsrc_def
    set candidates := rows.filter fun row =>
      !((srcs != "") && (row.image_hash == srcs)) &&
        (row.embedding.length != 0) with hcand_def
    by_cases hcand : candidates.isEmpty = true
    · rw [if_pos hcand] at hok
      cases hok
      exact ⟨[], by simp [sortDescKey], by simp⟩
    · rw [if_neg hcand] at hok
      rcases hvec : candidates.map (fun row => row.embedding) with _ | ⟨v, rest⟩
      · exfalso
        rw [List.isEmpty_iff] at hcand
        exact hcand (List.map_eq_nil_iff.mp hvec)
      · rw [hvec] at hok
        simp only [npAsMatrix] at hok
        by_cases hrect : rest.all (fun w => w.length == v.length) = true
        · rw [if_pos hrect] at hok
          unfold cosine_similarity_matrix at hok
          by_cases hdim : (2 : ℕ) ≠ 2 ∨ (2 : ℕ) ≠ 2
          · simp at hdim
          · rw [if_neg hdim] at hok
            by_cases hcols : q.length ≠ v.length
            · rw [if_pos hcols] at hok
              cases hok
            · rw [if_neg hcols] at hok
              simp only at hok
              cases hok
              refine ⟨_, rfl, ?_⟩
              intro e he
              have hflat :
                  (cosineRowsOf ⟨2, q.length, [q]⟩
                      ⟨2, v.length, v :: rest⟩).flatten
                    = (v :: rest).map fun rb => pairCosine q rb := by
                unfold cosineRowsOf
                simp
              rw [hflat, ← hvec, List.map_map] at he
              rw [zip_map_self] at he
              rw [List.filterMap_map] at he
              rcases List.mem_filterMap.mp he with ⟨c, hc, hce⟩
              simp only [Function.comp] at hce
              by_cases hthr : pairCosine q c.embedding < thr
              · rw [if_pos hthr] at hce
                cases hce
              · rw [if_neg hthr] at hce
                have hce' := Option.some.inj hce
                have hcmem := hc
                rw [hcand_def] at hcmem
                have hfil := List.mem_filter.mp hcmem
                refine ⟨c, hfil.1, ?_, ?_, ?_, ?_, ?_, ?_⟩
                · rw [← hce']
                · rw [← hce']
                · have hb := hfil.2
                  simp only [Bool.and_eq_true] at hb
                  intro hlen
                  have := hb.2
                  rw [bne_iff_ne] at this
                  exact this hlen
                · intro hsrcne
                  have hb := hfil.2
                  simp only [Bool.and_eq_true] at hb
                  have h1 := hb.1
                  rw [Bool.not_eq_true'] at h1
                  rw [Bool.and_eq_false_iff] at h1
                  rcases h1 with h1 | h1
                  · exfalso
                    apply hsrcne
                    rw [hsrc_def] at hsrcne ⊢
                    exact bne_eq_false_iff_eq.mp h1
                  · intro hcontra
                    rw [hsrc_def] at hcontra
                    rw [hcontra] at h1
                    simp at h1
                · exact hthr
                · rw [← hce']
        · rw [if_neg hrect] at hok
          unfold cosine_similarity_matrix at hok
          rw [if_pos (by norm_num)] at hok
          cases hok

/-- Length of a successful result (used to state the C5 counterexample
without spelling out real-valued entries). -/
noncomputable def okLength (r : Except String (List SimilarHit)) : Option ℕ :=
  match r with
  | .ok l => some l.length
  | .error _ => none

theorem pairCosine_one_one : pairCosine [(1 : ℝ)] [(1 : ℝ)] = 1 := by
  have h1 : sumSq [(1 : ℝ)] = 1 := by
    unfold sumSq
    norm_num
  have h2 : clampedNorm [(1 : ℝ)] = 1 := by
    unfold clampedNorm
    rw [h1, Real.sqrt_one]
    have heps : eps12 ≤ (1 : ℝ) := by unfold eps12; norm_num
    exact max_eq_left heps
  unfold pairCosine normalizeRow dotList
  rw [h2]
  norm_num

/-- C5 (amended): a successful `find_similar_images` call returns only
candidates whose cosine similarity to the query is `≥ threshold`,
sorted descending by the stored similarity, with length at most
`max(1, min(l, 100))` where `l` is the supplied limit unless that limit
is zero (or `None`, both falsy in Python), in which case the default
`25` is used. -/
theorem find_similar_threshold_sorted_limited (store : Store) (q : List ℝ)
    (model : String) (thr : ℝ) (lim scan : ℤ) (src : Option String)
    (out : List SimilarHit)
    (hok : find_similar_images store q model thr lim scan src = .ok out) :
    (∀ e ∈ out, ∃ row ∈ store.list_image_embeddings model scan,
        e.image_hash = row.image_hash ∧ thr ≤ pairCosine q row.embedding ∧
        e.similarity = round6 (pairCosine q row.embedding)) ∧
    out.Pairwise (fun x y => y.similarity ≤ x.similarity) ∧
    out.length ≤ pyLimitClamp lim := by
  obtain ⟨hits, hout, hprop⟩ :=
    find_similar_images_ok_shape store q model thr lim scan src out hok
  subst hout
  refine ⟨?_, ?_, ?_⟩
  · intro e he
    have he2 : e ∈ hits :=
      (mem_sortDescKey _ _ _).mp (List.mem_of_mem_take he)
    obtain ⟨row, hrow, h1, _, _, _, hthr, hsim⟩ := hprop e he2
    exact ⟨row, hrow, h1, le_of_not_lt hthr, hsim⟩
  · exact List.Pairwise.sublist (List.take_sublist _ _)
      (sortDescKey_pairwise _ hits)
  · rw [List.length_take]
    exact min_le_left _ _

/-- Witness for C5 on an empty (but enabled) store: the call succeeds
with the empty result, which trivially satisfies all three bounds. -/
theorem find_similar_threshold_sorted_limited_witness :
    (∀ e ∈ ([] : List SimilarHit),
        ∃ row ∈ Store.list_image_embeddings
            ⟨true, [], fun _ => none, fun _ => none, fun _ => none⟩ "m" 3000,
          e.image_hash = row.image_hash ∧
          (0 : ℝ) ≤ pairCosine [1] row.embedding ∧
          e.similarity = round6 (pairCosine [1] row.embedding)) ∧
    ([] : List SimilarHit).Pairwise
      (fun x y => y.similarity ≤ x.similarity) ∧
    ([] : List SimilarHit).length ≤ pyLimitClamp 25 :=
  find_similar_threshold_sorted_limited
    ⟨true, [], fun _ => none, fun _ => none, fun _ => none⟩
    [1] "m" 0 25 3000 none [] rfl

/-- Counterexample to C5 as literally stated: with `limit = 0` and two
candidates at similarity `1 ≥ threshold = 0`, the result has 2 entries,
but the claim's bound `max(1, min(limit, 100))` is `1` — the code
slices with `max(1, min(int(limit or 25), 100))`, so a zero limit falls
back to the default `25`. -/
theorem find_similar_limit_zero_cex :
    okLength
        (find_similar_images
          ⟨true, [⟨"h1", none, "m", [1]⟩, ⟨"h2", none, "m", [1]⟩],
            fun _ => none, fun _ => none, fun _ => none⟩
          [1] "m" 0 0 3000 none)
      = some 2 ∧
    ¬ ((2 : ℕ) ≤ (max 1 (min (0 : ℤ) 100)).toNat) := by
  constructor
  · have hrows :
        Store.list_image_embeddings
          ⟨true, [⟨"h1", none, "m", [1]⟩, ⟨"h2", none, "m", [1]⟩],
            fun _ => none, fun _ => none, fun _ => none⟩ "m" 3000
        = [⟨"h1", none, [1]⟩, ⟨"h2", none, [1]⟩] := by
      rfl
    unfold find_similar_images
    rw [hrows]
    simp only [List.isEmpty_cons, if_false, Bool.false_eq_true,
      Option.getD_none]
    norm_num [npAsMatrix, cosine_similarity_matrix, cosineRowsOf,
      pairCosine_one_one, sortDescKey, insertDescKey, pyLimitClamp,
      okLength]
    have hlt : ¬ ((1 : ℝ) < 0) := by norm_num
    simp [List.filterMap_cons, hlt, insertDescKey, lt_self_iff_false]
  · decide

/-- C6: a successful `find_similar_images` call with a non-empty
`source_image_hash` never returns that hash (the query's own row is
excluded), and every returned entry corresponds to a scanned row whose
stored embedding is non-empty (zero-length vectors are excluded). -/
theorem find_similar_excludes_source_hash (store : Store) (q : List ℝ)
    (model : String) (thr : ℝ) (lim scan : ℤ) (h : String)
    (out : List SimilarHit) (hne : h ≠ "")
    (hok : find_similar_images store q model thr lim scan (some h)
      = .ok out) :
    ∀ e ∈ out, e.image_hash ≠ h ∧
      ∃ row ∈ store.list_image_embeddings model scan,
        e.image_hash = row.image_hash ∧ row.embedding.length ≠ 0 := by
  obtain ⟨hits, hout, hprop⟩ :=
    find_similar_images_ok_shape store q model thr lim scan (some h) out hok
  subst hout
  intro e he
  have he2 : e ∈ hits :=
    (mem_sortDescKey _ _ _).mp (List.mem_of_mem_take he)
  obtain ⟨row, hrow, h1, _, hlen, hsrc, _, _⟩ := hprop e he2
  refine ⟨?_, row, hrow, h1, hlen⟩
  rw [h1]
  exact hsrc hne

/-- Witness for C6: with the query's own hash `"h"` in the scanned set
(at similarity 1) next to a second row `"x"`, the single returned entry
is `"x"` — and it is not the source hash. -/
theorem find_similar_excludes_source_hash_witness :
    SimilarHit.image_hash ⟨"x", none, round6 1⟩ ≠ "h" ∧
    (∃ row ∈ Store.list_image_embeddings
        ⟨true, [⟨"h", none, "m", [1]⟩, ⟨"x", none, "m", [1]⟩],
          fun _ => none, fun _ => none, fun _ => none⟩ "m" 3000,
      SimilarHit.image_hash ⟨"x", none, round6 1⟩ = row.image_hash ∧
      row.embedding.length ≠ 0) := by
  have hok : find_similar_images
      ⟨true, [⟨"h", none, "m", [1]⟩, ⟨"x", none, "m", [1]⟩],
        fun _ => none, fun _ => none, fun _ => none⟩
      [1] "m" 0 25 3000 (some "h") = .ok [⟨"x", none, round6 1⟩] := by
    have hrows : Store.list_image_embeddings
        ⟨true, [⟨"h", none, "m", [1]⟩, ⟨"x", none, "m", [1]⟩],
          fun _ => none, fun _ => none, fun _ => none⟩ "m" 3000
        = [⟨"h", none, [1]⟩, ⟨"x", none, [1]⟩] := by
      rfl
    unfold find_similar_images
    rw [hrows]
    simp only [List.isEmpty_cons, if_false, Bool.false_eq_true,
      Option.getD_some]
    norm_num [npAsMatrix, cosine_similarity_matrix, cosineRowsOf,
      pairCosine_one_one, sortDescKey, insertDescKey, pyLimitClamp]
    have hlt : ¬ ((1 : ℝ) < 0) := by norm_num
    simp [List.filterMap_cons, hlt, insertDescKey, pairCosine_one_one]
  exact find_similar_excludes_source_hash
    ⟨true, [⟨"h", none, "m", [1]⟩, ⟨"x", none, "m", [1]⟩],
      fun _ => none, fun _ => none, fun _ => none⟩
    [1] "m" 0 25 3000 "h" [⟨"x", none, round6 1⟩] (by decide) hok
    ⟨"x", none, round6 1⟩ (List.mem_singleton_self _)

/-! ## `llm_label_expander.py`

The OpenAI call plus the permissive parse of its reply
(`client.chat.completions.create`, the `choices[0].message.content`
extraction and `_extract_json_dict`, which never raises and yields a
`dict` or `None`) is a single external exchange; it enters the model as
the oracle `remote`: `.error ()` when the guarded `try` block raised,
`.ok none` when no JSON object could be extracted from the reply,
`.ok (some obj)` for a parsed object.  `_normalize_payload` and
`_sanitize_list` are embedded. -/

/-- Python `str.strip()` (drop leading/trailing whitespace), written
over the character list so that it evaluates inside the kernel. -/
def pyStrip (s : String) : String :=
  ⟨((s.data.dropWhile Char.isWhitespace).reverse.dropWhile
      Char.isWhitespace).reverse⟩

/-- Python `str.lower()` (ASCII lowering, which covers every label,
hash and theme this code produces). -/
def pyLower (s : String) : String := ⟨s.data.map Char.toLower⟩

/-- The canonical expansion payload
`{subtags, style_traits, emotions, pack_suggestions}`. -/
structure Expansion where
  subtags : List String
  style_traits : List String
  emotions : List String
  pack_suggestions : List String
deriving DecidableEq

/-- `_EMPTY_EXPANSION`. -/
def emptyExpansion : Expansion := ⟨[], [], [], []⟩

/-- Python `str()` of a JSON-decoded value, as used by
`_sanitize_list`.  Scalar cases follow CPython; container reprs are
abbreviated (no claim inspects them — the sanitizer only trims and
compares them). -/
def pyStr : JValue → String
  | .str s => s
  | .num q => toString q
  | .jbool b => if b then "True" else "False"
  | .null => "None"
  | .arr _ => "[...]"
  | .obj _ => "{...}"

/-- The loop body of `_sanitize_list`: trim, drop empties,
case-insensitively dedupe, stop at `max_items`. -/
def sanitizeAux (max_items : ℕ) (seen : List String) (acc : List String) :
    List JValue → List String
  | [] => acc.reverse
  | v :: rest =>
      let text := pyStrip (pyStr v)
      if text = "" then sanitizeAux max_items seen acc rest
      else
        let key := pyLower text
        if key ∈ seen then sanitizeAux max_items seen acc rest
        else
          let acc2 := text :: acc
          if max_items ≤ acc2.length then acc2.reverse
          else sanitizeAux max_items (key :: seen) acc2 rest

/-- Embedding of `_sanitize_list` (a non-list input yields `[]`;
`source.get(key)` misses become `none`). -/
def sanitize_list (values : Option JValue) (max_items : ℕ) : List String :=
  match values with
  | some (.arr xs) => sanitizeAux max_items [] [] xs
  | _ => []

/-- `dict.get` on a parsed JSON object. -/
def jobjGet (o : JObj) (k : String) : Option JValue :=
  (o.find? fun p => p.1 == k).map fun p => p.2

/-- Embedding of `_normalize_payload`. -/
def normalize_payload (payload : Option JObj) : Expansion :=
  let source := payload.getD []
  ⟨sanitize_list (jobjGet source "subtags") 20,
    sanitize_list (jobjGet source "style_traits") 12,
    sanitize_list (jobjGet source "emotions") 10,
    sanitize_list (jobjGet source "pack_suggestions") 12⟩

/-- The JSON object `json.dumps` serializes an expansion payload to
(and `json.loads` reads back). -/
def expansionToJObj (e : Expansion) : JObj :=
  [("subtags", .arr (e.subtags.map .str)),
    ("style_traits", .arr (e.style_traits.map .str)),
    ("emotions", .arr (e.emotions.map .str)),
    ("pack_suggestions", .arr (e.pack_suggestions.map .str))]

/-- Observable interactions of a call with the persistent store and the
remote collaborator, recorded at each call site. -/
inductive StoreEvent where
  | getImageEmb (image_hash model_name : String)
  | saveImageEmb (image_hash model_name : String)
  | getLabelEmbs (model_name : String) (labels : List String)
  | saveLabelEmbs (model_name : String) (labels : List String)
  | listImageEmb (model_name : String) (limit : ℤ)
  | getAffinity (image_hash theme : String)
  | getLLM (key : LLMKey)
  | saveLLM (key : LLMKey)
  | remoteChatCall
deriving DecidableEq

/-- Embedding of `_build_cache_key` (see `LLMKey` for the digest
modelling). -/
def build_cache_key (model_name : String) (top_labels : List String) :
    LLMKey :=
  (model_name, top_labels)

/-- `[str(label).strip() for label in top_labels if str(label).strip()][:3]`. -/
def cleanLabels (top_labels : List String) : List String :=
  ((top_labels.map fun l => pyStrip l).filter fun l => l != "").take 3

/-- Default `LLM_LABEL_EXPANSION_MODEL`. -/
def LLM_EXPANSION_MODEL : String := "gpt-4.1-mini"

/-- Embedding of `expand_labels_with_llm`.  `api_key_env` is the value
of `os.getenv("OPENAI_API_KEY", "")` (empty when unset); `remote` is
the external exchange described in the section header.  The function is
total: every failure of the remote exchange is the `.error` case of the
oracle, normalized to the empty payload. -/
def expand_labels_with_llm (top_labels : List String) (store : Store)
    (enabled : Bool) (model_name : String) (api_key_env : String)
    (remote : Except Unit (Option JObj)) :
    Expansion × Store × List StoreEvent :=
  if enabled = false then (emptyExpansion, store, [])
  else
    let clean_labels := cleanLabels top_labels
    if clean_labels.isEmpty = true then (emptyExpansion, store, [])
    else if pyStrip api_key_env = "" then (emptyExpansion, store, [])
    else
      let cache_key := build_cache_key model_name clean_labels
      match store.get_llm_expansion cache_key with
      | some cached =>
          (normalize_payload (some cached), store, [.getLLM cache_key])
      | none =>
          let normalized :=
            match remote with
            | .error _ => emptyExpansion
            | .ok parsed => normalize_payload parsed
          (normalized,
            store.save_llm_expansion cache_key (expansionToJObj normalized),
            [.getLLM cache_key, .remoteChatCall, .saveLLM cache_key])

/-- C7: on an enrichment-cache miss (enabled, non-empty cleaned labels,
API key present, no cached entry, operational store), the call never
raises — every remote outcome yields a payload: the empty one when the
remote exchange failed, the normalized parse otherwise — and that
payload is persisted under the cache key regardless of success (the
event log shows exactly one lookup, one remote call and one save), then
returned. -/
theorem expand_labels_miss_caches_result (store : Store)
    (top_labels : List String) (model_name api_key : String)
    (remote : Except Unit (Option JObj))
    (hstore : store.enabled = true)
    (hcl : cleanLabels top_labels ≠ [])
    (hkey : pyStrip api_key ≠ "")
    (hmiss : store.get_llm_expansion
        (build_cache_key model_name (cleanLabels top_labels)) = none) :
    (remote = .error () →
      (expand_labels_with_llm top_labels store true model_name api_key
          remote).1 = emptyExpansion) ∧
    (∀ parsed, remote = .ok parsed →
      (expand_labels_with_llm top_labels store true model_name api_key
          remote).1 = normalize_payload parsed) ∧
    (expand_labels_with_llm top_labels store true model_name api_key
        remote).2.2
      = [.getLLM (build_cache_key model_name (cleanLabels top_labels)),
          .remoteChatCall,
          .saveLLM (build_cache_key model_name (cleanLabels top_labels))] ∧
    Store.get_llm_expansion
        (expand_labels_with_llm top_labels store true model_name api_key
          remote).2.1
        (build_cache_key model_name (cleanLabels top_labels))
      = some (expansionToJObj
          (expand_labels_with_llm top_labels store true model_name api_key
            remote).1) := by
  have hexp : expand_labels_with_llm top_labels store true model_name
      api_key remote
      = (match remote with
          | .error _ => emptyExpansion
          | .ok parsed => normalize_payload parsed,
        store.save_llm_expansion
          (build_cache_key model_name (cleanLabels top_labels))
          (expansionToJObj
            (match remote with
              | .error _ => emptyExpansion
              | .ok parsed => normalize_payload parsed)),
        [.getLLM (build_cache_key model_name (cleanLabels top_labels)),
          .remoteChatCall,
          .saveLLM (build_cache_key model_name (cleanLabels top_labels))])
      := by
    unfold expand_labels_with_llm
    rw [if_neg (by simp)]
    simp only
    rw [if_neg (by simp [List.isEmpty_iff, hcl]), if_neg hkey, hmiss]
  rw [hexp]
  refine ⟨?_, ?_, rfl, ?_⟩
  · intro hrem
    rw [hrem]
  · intro parsed hrem
    rw [hrem]
  · unfold Store.save_llm_expansion
    rw [if_neg (by simp [hstore])]
    unfold Store.get_llm_expansion
    simp [hstore]

/-- Witness for C7: a remote failure on an empty enabled store caches
and returns the empty payload. -/
theorem expand_labels_miss_caches_result_witness :
    (expand_labels_with_llm ["cat"]
        ⟨true, [], fun _ => none, fun _ => none, fun _ => none⟩
        true "gpt-4.1-mini" "k" (.error ())).1 = emptyExpansion ∧
    Store.get_llm_expansion
        (expand_labels_with_llm ["cat"]
          ⟨true, [], fun _ => none, fun _ => none, fun _ => none⟩
          true "gpt-4.1-mini" "k" (.error ())).2.1
        (build_cache_key "gpt-4.1-mini" (cleanLabels ["cat"]))
      = some (expansionToJObj emptyExpansion) := by
  have h := expand_labels_miss_caches_result
    ⟨true, [], fun _ => none, fun _ => none, fun _ => none⟩
    ["cat"] "gpt-4.1-mini" "k" (.error ())
    rfl (by decide) (by decide) rfl
  refine ⟨h.1 rfl, ?_⟩
  have h4 := h.2.2.2
  rw [h.1 rfl] at h4
  exact h4

/-- C10: with enrichment enabled, a non-empty label list and an empty
(or unset) `OPENAI_API_KEY`, `expand_labels_with_llm` returns the
canonical empty payload, leaves the store untouched and performs no
store read/write and no remote call (empty event log) — for every
store, including one holding a cached entry for the key. -/
theorem expand_labels_no_api_key_frame (store : Store)
    (top_labels : List String) (model_name : String)
    (remote : Except Unit (Option JObj))
    (_hne : top_labels ≠ []) (hkey : pyStrip "" = "") :
    expand_labels_with_llm top_labels store true model_name "" remote
      = (emptyExpansion, store, []) := by
  unfold expand_labels_with_llm
  rw [if_neg (by simp)]
  simp only
  by_cases hcl : (cleanLabels top_labels).isEmpty = true
  · rw [if_pos hcl]
  · rw [if_neg hcl, if_pos hkey]

/-- Witness for C10: the API-key guard fires even when the store holds
a cached entry for the very key the labels would produce. -/
theorem expand_labels_no_api_key_frame_witness :
    expand_labels_with_llm ["cat"]
        ⟨true, [], fun _ => none, fun _ => none,
          fun k => if k = ("m", ["cat"]) then
            some (expansionToJObj ⟨["x"], [], [], []⟩) else none⟩
        true "m" "" (.error ())
      = (emptyExpansion,
        ⟨true, [], fun _ => none, fun _ => none,
          fun k => if k = ("m", ["cat"]) then
            some (expansionToJObj ⟨["x"], [], [], []⟩) else none⟩,
        []) :=
  expand_labels_no_api_key_frame
    ⟨true, [], fun _ => none, fun _ => none,
      fun k => if k = ("m", ["cat"]) then
        some (expansionToJObj ⟨["x"], [], [], []⟩) else none⟩
    ["cat"] "m" (.error ()) (by decide) rfl

/-! ## `classifier.py`

The CLIP model itself (preprocessing, `encode_image`, `encode_text`,
the learned `logit_scale`) is the excluded vision-language collaborator
and enters as the `ClipModel` oracle; PIL decoding and the
`hashlib.sha256` content digest are likewise oracle parameters of
`classify_image_bytes`.  Environment-derived constants are modelled at
their documented defaults. -/

def NSFW_THRESHOLD : ℝ := 0.6
def CLIP_MODEL_NAME : String := "MobileCLIP-S1"
def MAX_LABELS : ℕ := 256
def CLIP_TOP_K : ℕ := 5
def ENABLE_EMBEDDING_CACHE : Bool := true
def ENABLE_CLUSTERING : Bool := true
def ENABLE_ADAPTIVE_SCORING : Bool := true
def ENABLE_LLM_LABEL_EXPANSION : Bool := true
def ADAPTIVE_ALPHA : ℝ := 0.4
def ENTROPY_THRESHOLD : ℝ := 2.5
def SIMILARITY_THRESHOLD_DEFAULT : ℝ := 0.85
def SIMILARITY_LIMIT_DEFAULT : ℤ := 25
def SIMILARITY_SCAN_LIMIT : ℤ := 3000

/-- `BUILTIN_DEFAULT_LABELS`. -/
def BUILTIN_DEFAULT_LABELS : List String :=
  ["anime illustration",
    "manga panel",
    "cartoon",
    "comic art",
    "chibi character",
    "3d render",
    "pixel art",
    "vector illustration",
    "line art drawing",
    "watercolor painting",
    "oil painting",
    "real life photo",
    "portrait photo",
    "selfie photo",
    "group photo",
    "close-up face photo",
    "landscape photo",
    "cityscape photo",
    "street photography",
    "night photo",
    "indoor photo",
    "outdoor photo",
    "nature photo",
    "animal photo",
    "pet photo",
    "food photo",
    "product photo",
    "car photo",
    "motorcycle photo",
    "document screenshot",
    "website screenshot",
    "mobile app screenshot",
    "desktop app screenshot",
    "chat screenshot",
    "video game screenshot",
    "fps game screenshot",
    "rpg game screenshot",
    "moba game screenshot",
    "racing game screenshot",
    "sports game screenshot",
    "stream overlay screenshot",
    "meme image",
    "reaction meme",
    "shitpost meme",
    "motivational quote image",
    "text-only image",
    "poster design",
    "banner design",
    "logo design",
    "brand identity image",
    "infographic",
    "presentation slide",
    "advertisement image",
    "flyer design",
    "event poster",
    "album cover",
    "book cover",
    "movie poster",
    "anime wallpaper",
    "gaming wallpaper",
    "abstract wallpaper",
    "minimal wallpaper",
    "tech wallpaper",
    "sticker style image",
    "emoji style image",
    "telegram sticker style",
    "whatsapp sticker style",
    "cute style image",
    "kawaii style image",
    "dark aesthetic image",
    "cyberpunk style image",
    "fantasy art",
    "sci-fi art",
    "horror art",
    "gothic style image",
    "retro style image",
    "vaporwave style image",
    "glitch art",
    "low quality compressed image",
    "blurry image",
    "watermarked image",
    "collage image",
    "photo with overlaid text",
    "handwritten note photo",
    "whiteboard photo",
    "code screenshot",
    "terminal screenshot",
    "dashboard screenshot",
    "chart screenshot",
    "ui mockup",
    "wireframe design",
    "architecture photo",
    "interior design photo",
    "fashion photo",
    "beauty photo",
    "wedding photo",
    "party photo",
    "sports photo",
    "gym photo",
    "travel photo",
    "beach photo",
    "mountain photo",
    "forest photo",
    "rainy weather photo",
    "sunset photo",
    "space themed image",
    "medical image",
    "educational image",
    "news image",
    "political image",
    "religious image",
    "family-friendly content",
    "violent content",
    "weapon content",
    "gore content",
    "drug-related content",
    "alcohol-related content",
    "smoking-related content",
    "suggestive content",
    "nsfw content",
    "adult explicit content"]

/-- `DEFAULT_LABELS = _load_default_labels()` with no environment
override configured. -/
def DEFAULT_LABELS : List String := BUILTIN_DEFAULT_LABELS

/-- The loop of `_normalize_labels`: trim, drop empties,
case-insensitively dedupe (keeping the first spelling). -/
def normalizeLabelsAux (seen : List String) (acc : List String) :
    List String → List String
  | [] => acc.reverse
  | l :: rest =>
      let normalized := pyStrip l
      if normalized = "" then normalizeLabelsAux seen acc rest
      else
        let key := pyLower normalized
        if key ∈ seen then normalizeLabelsAux seen acc rest
        else normalizeLabelsAux (key :: seen) (normalized :: acc) rest

/-- Embedding of `_normalize_labels`; the `raise ValueError` becomes
`Except.error`. -/
def normalize_labels (labels : Option (List String)) :
    Except String (List String) :=
  let ls := labels.getD DEFAULT_LABELS
  let clean := normalizeLabelsAux [] [] ls
  if clean = [] then .error "labels não pode ser vazio"
  else .ok (clean.take MAX_LABELS)

/-- Python `needle in haystack` on strings. -/
def strContains (haystack needle : String) : Bool :=
  haystack.data.tails.any fun t => needle.data.isPrefixOf t

/-- Embedding of `_pick_nsfw_label`. -/
def pick_nsfw_label (labels : List String) : Option String :=
  labels.find? fun label =>
    ["nsfw", "adult", "explicit", "porn", "sexual"].any fun kw =>
      strContains (pyLower label) kw

/-- Embedding of `_softmax` (`np.max` of the empty array raises in
numpy; the callers only pass non-empty label vectors, so the `[]` case
is unreachable and maps to `[]`). -/
noncomputable def pySoftmax (logits : List ℝ) : List ℝ :=
  match logits with
  | [] => []
  | x :: xs =>
      let m := xs.foldl max x
      let ex := (x :: xs).map fun v => Real.exp (v - m)
      ex.map fun e => e / max ex.sum eps12

/-- Embedding of `_entropy` (`np.clip(p, 1e-12, 1.0)` before the log). -/
noncomputable def pyEntropy (ps : List ℝ) : ℝ :=
  -(ps.map fun p => min (max p eps12) 1 * Real.log (min (max p eps12) 1)).sum

/-- Embedding of `_round_map`. -/
noncomputable def round_map (values : List (String × ℝ)) :
    List (String × ℝ) :=
  values.map fun p => (p.1, round6 p.2)

/-- Embedding of `_normalize_theme`
(`str(value or "").strip().lower()[:120]`). -/
def normalize_theme (value : Option String) : String :=
  ⟨(pyLower (pyStrip (value.getD ""))).data.take 120⟩

/-- Generic association-list lookup (a Python `dict` read). -/
def lookupA {β : Type} (l : List (String × β)) (k : String) : Option β :=
  (l.find? fun p => p.1 == k).map fun p => p.2

/-- Opaque stand-in for a decoded `PIL.Image` value. -/
structure PILImage where
  tag : ℕ

/-- Oracle for the excluded CLIP collaborator: unit-normalized image
and text encoders plus the exponentiated `logit_scale` scalar. -/
structure ClipModel where
  model_name : String
  logit_scale : ℝ
  encodeImage : PILImage → List ℝ
  encodeText : List String → List (List ℝ)

/-- Mutable state of a `ClipClassifier`: its `EmbeddingStore` and the
in-process label-embedding memo. -/
structure CState where
  store : Store
  memo : String → Option (List ℝ)

/-- Embedding of `ClipClassifier.get_image_embedding`. -/
def clip_get_image_embedding (M : ClipModel) (C : CState)
    (image : PILImage) (image_hash : Option String)
    (asset_id : Option String) : List ℝ × CState × List StoreEvent :=
  let h := image_hash.getD ""
  if ENABLE_EMBEDDING_CACHE = true ∧ h ≠ "" then
    match C.store.get_image_embedding h M.model_name with
    | some cached =>
        if cached.length > 0 then (cached, C, [.getImageEmb h M.model_name])
        else
          let computed := M.encodeImage image
          (computed,
            { C with
              store := C.store.save_image_embedding h M.model_name computed
                asset_id },
            [.getImageEmb h M.model_name, .saveImageEmb h M.model_name])
    | none =>
        let computed := M.encodeImage image
        (computed,
          { C with
            store := C.store.save_image_embedding h M.model_name computed
              asset_id },
          [.getImageEmb h M.model_name, .saveImageEmb h M.model_name])
  else (M.encodeImage image, C, [])

/-- Embedding of `ClipClassifier.get_label_embeddings`: memo tier, then
persistent tier, then the text encoder; both tiers are refreshed. -/
def clip_get_label_embeddings (M : ClipModel) (C : CState)
    (labels : List String) :
    Except String (List (String × List ℝ) × CState × List StoreEvent) :=
  match normalize_labels (some labels) with
  | .error e => .error e
  | .ok clean =>
      let missing1 := clean.filter fun l => (C.memo l).isNone
      let cacheTier : Bool :=
        !missing1.isEmpty && ENABLE_EMBEDDING_CACHE
      let persisted :=
        if cacheTier = true then
          C.store.get_label_embeddings M.model_name missing1
        else fun _ => none
      let ev1 : List StoreEvent :=
        if cacheTier = true then [.getLabelEmbs M.model_name missing1]
        else []
      let missing2 := missing1.filter fun l => (persisted l).isNone
      let computedA := missing2.zip (M.encodeText missing2)
      let doSave : Bool := ENABLE_EMBEDDING_CACHE && !computedA.isEmpty
      let store2 :=
        if doSave = true then
          C.store.save_label_embeddings M.model_name computedA
        else C.store
      let ev2 : List StoreEvent :=
        if doSave = true then [.saveLabelEmbs M.model_name missing2]
        else []
      let resolve : String → Option (List ℝ) := fun l =>
        match lookupA computedA l with
        | some v => some v
        | none =>
            match persisted l with
            | some v => some v
            | none => C.memo l
      let memo2 : String → Option (List ℝ) := fun l =>
        if l ∈ clean ∧ (resolve l).isSome = true then resolve l
        else C.memo l
      .ok (clean.filterMap fun l => (resolve l).map fun v => (l, v),
        ⟨store2, memo2⟩, ev1 ++ ev2)

/-- One row of the `top_labels` payload. -/
structure TopLabelEntry where
  label : String
  score : ℝ
  logit : ℝ
  clip_score : ℝ

/-- The structured classification response of `classify_pil`. -/
structure ClassifyPayload where
  category : String
  confidence : ℝ
  all_scores : List (String × ℝ)
  raw_logits : List (String × ℝ)
  top_labels : List TopLabelEntry
  entropy : ℝ
  confidence_margin : ℝ
  nsfw_score : ℝ
  is_nsfw : Bool
  ambiguous : Bool
  affinity_weight : ℝ
  llm_expansion : Expansion
  similar_images : List SimilarHit
  image_hash : Option String
  model_name : String

/-- Result of a classification call: the payload, the classifier state
after the call, and the store/remote interaction log. -/
structure ClassifyOut where
  payload : ClassifyPayload
  state : CState
  events : List StoreEvent

/-- Embedding of `ClipClassifier.classify_pil`.  `api_key_env` and
`remote` feed the enrichment step (see `expand_labels_with_llm`); the
similarity scan's store read is logged as `.listImageEmb` at the call
site.  Unreachable `dict` defaults (every clean label has a logit and a
score) are `0`. -/
noncomputable def classify_pil (M : ClipModel) (C : CState)
    (image : PILImage) (labels : Option (List String))
    (nsfw_threshold : ℝ) (image_hash : Option String)
    (asset_id : Option String) (theme : Option String)
    (similar_threshold : Option ℝ) (similar_limit : Option ℤ)
    (api_key_env : String) (remote : Except Unit (Option JObj)) :
    Except String ClassifyOut :=
  match normalize_labels labels with
  | .error e => .error e
  | .ok clean_labels =>
    let nsfw_label := pick_nsfw_label clean_labels
    let normalized_theme := normalize_theme theme
    let h := image_hash.getD ""
    let r1 := clip_get_image_embedding M C image image_hash asset_id
    let image_embedding := r1.1
    match clip_get_label_embeddings M r1.2.1 clean_labels with
    | .error e => .error e
    | .ok r2 =>
      let label_embeddings := r2.1
      let C2 := r2.2.1
      let text_rows := clean_labels.map fun l =>
        (lookupA label_embeddings l).getD []
      let logits := text_rows.map fun t =>
        dotList image_embedding t * M.logit_scale
      let logits_by_label := clean_labels.zip logits
      let base_scores := clean_labels.zip (pySoftmax logits)
      let adaptiveOn : Bool :=
        ENABLE_ADAPTIVE_SCORING && (h != "") && (normalized_theme != "")
      let affinity_weight : ℚ :=
        if adaptiveOn = true then
          C2.store.get_affinity_weight h normalized_theme
        else 0
      let effective_scores :=
        if adaptiveOn = true then
          apply_adaptive_scores base_scores ((affinity_weight : ℝ))
            ADAPTIVE_ALPHA
        else base_scores
      let ev3 : List StoreEvent :=
        if adaptiveOn = true then [.getAffinity h normalized_theme] else []
      let ordered := sortDescKey
        (fun l => toLex ((lookupA effective_scores l).getD 0,
          (lookupA logits_by_label l).getD 0))
        clean_labels
      let top_k : ℕ := min CLIP_TOP_K ordered.length
      let top_labels_payload := (ordered.take top_k).map fun label =>
        (⟨label, round6 ((lookupA effective_scores label).getD 0),
          round6 ((lookupA logits_by_label label).getD 0),
          round6 ((lookupA base_scores label).getD 0)⟩ : TopLabelEntry)
      let top_items := top_k_items effective_scores (top_k : ℤ)
      let best_label :=
        match top_items with
        | [] => ordered.headD ""
        | it :: _ => it.1
      let best_score := (lookupA effective_scores best_label).getD 0
      let entropyV := pyEntropy (clean_labels.map fun l =>
        (lookupA effective_scores l).getD 0)
      let margin := confidence_margin top_items
      let nsfw_score :=
        match nsfw_label with
        | some l => (lookupA effective_scores l).getD 0
        | none => 0
      let r4 := expand_labels_with_llm
        ((top_labels_payload.take 3).map fun e => e.label) C2.store
        ENABLE_LLM_LABEL_EXPANSION LLM_EXPANSION_MODEL api_key_env remote
      let C4 : CState := ⟨r4.2.1, C2.memo⟩
      let payloadOf : List SimilarHit → ClassifyPayload := fun sims =>
        ⟨best_label, round6 best_score, round_map effective_scores,
          round_map logits_by_label, top_labels_payload, round6 entropyV,
          round6 margin, round6 nsfw_score,
          if nsfw_score ≥ nsfw_threshold then true else false,
          if entropyV > ENTROPY_THRESHOLD then true else false,
          round6 ((affinity_weight : ℝ)), r4.1, sims, image_hash,
          M.model_name⟩
      if ENABLE_CLUSTERING = true ∧ ENABLE_EMBEDDING_CACHE = true ∧
          image_embedding.length > 0 then
        let thr := similar_threshold.getD SIMILARITY_THRESHOLD_DEFAULT
        let lim := similar_limit.getD SIMILARITY_LIMIT_DEFAULT
        match find_similar_images C4.store image_embedding M.model_name
            thr lim SIMILARITY_SCAN_LIMIT image_hash with
        | .error e => .error e
        | .ok similar_images =>
            .ok ⟨payloadOf similar_images, C4,
              r1.2.2 ++ r2.2.2 ++ ev3 ++ r4.2.2 ++
                [.listImageEmb M.model_name SIMILARITY_SCAN_LIMIT]⟩
      else .ok ⟨payloadOf [], C4, r1.2.2 ++ r2.2.2 ++ ev3 ++ r4.2.2⟩

/-- Embedding of `classify_image_bytes`.  `digest` is the oracle for
`hashlib.sha256(image_bytes).hexdigest()` (the stdlib content digest of
the upload); `decoded` is the oracle for `PIL.Image.open` + `load`,
`none` exactly when PIL raises `UnidentifiedImageError`. -/
noncomputable def classify_image_bytes (M : ClipModel) (C : CState)
    (image_bytes : List ℕ) (labels : Option (List String))
    (nsfw_threshold : ℝ) (asset_id : Option String)
    (asset_sha256 : Option String) (theme : Option String)
    (similar_threshold : Option ℝ) (similar_limit : Option ℤ)
    (digest : String) (decoded : Option PILImage) (api_key_env : String)
    (remote : Except Unit (Option JObj)) : Except String ClassifyOut :=
  if image_bytes = [] then .error "Nenhum conteúdo de imagem recebido."
  else
    let pre :=
      match asset_sha256 with
      | some s => if s = "" then "" else pyLower (pyStrip s)
      | none => ""
    let image_hash := if pre = "" then digest else pre
    match decoded with
    | none => .error "Upload inválido: conteúdo não reconhecido como imagem."
    | some image =>
        classify_pil M C image labels nsfw_threshold (some image_hash)
          asset_id theme similar_threshold similar_limit api_key_env remote

theorem normalizeLabelsAux_all_blank (ls : List String)
    (seen acc : List String) (hall : ∀ l ∈ ls, pyStrip l = "") :
    normalizeLabelsAux seen acc ls = acc.reverse := by
  induction ls generalizing seen acc with
  | nil => rfl
  | cons l rest ih =>
      unfold normalizeLabelsAux
      rw [if_pos (hall l (List.mem_cons_self l rest))]
      exact ih seen acc fun x hx => hall x (List.mem_cons_of_mem l hx)

theorem normalize_labels_all_blank (ls : List String)
    (hall : ∀ l ∈ ls, pyStrip l = "") :
    normalize_labels (some ls) = .error "labels não pode ser vazio" := by
  unfold normalize_labels
  simp only [Option.getD_some]
  rw [normalizeLabelsAux_all_blank ls [] [] hall]
  rfl

/-- C8: the classification entry points surface validation errors
synchronously: an empty payload and an undecodable image each raise a
descriptive `ValueError` from `classify_image_bytes`, and a supplied
label set with no non-empty label after trimming makes
`_normalize_labels` raise — which propagates through
`classify_image_bytes` — so in every such case no classification
result is returned (the call is an `Except.error`). -/
theorem classify_validation_errors (M : ClipModel) (C : CState)
    (image_bytes : List ℕ) (labels : Option (List String)) (nthr : ℝ)
    (aid asha : Option String) (theme : Option String) (sthr : Option ℝ)
    (slim : Option ℤ) (digest : String) (decoded : Option PILImage)
    (key : String) (remote : Except Unit (Option JObj)) :
    (image_bytes = [] →
      classify_image_bytes M C image_bytes labels nthr aid asha theme sthr
          slim digest decoded key remote
        = .error "Nenhum conteúdo de imagem recebido.") ∧
    (image_bytes ≠ [] → decoded = none →
      classify_image_bytes M C image_bytes labels nthr aid asha theme sthr
          slim digest decoded key remote
        = .error "Upload inválido: conteúdo não reconhecido como imagem.") ∧
    (∀ ls, labels = some ls → (∀ l ∈ ls, pyStrip l = "") →
      normalize_labels labels = .error "labels não pode ser vazio" ∧
      (image_bytes ≠ [] → ∀ img, decoded = some img →
        classify_image_bytes M C image_bytes labels nthr aid asha theme
            sthr slim digest decoded key remote
          = .error "labels não pode ser vazio")) := by
  refine ⟨?_, ?_, ?_⟩
  · intro hb
    unfold classify_image_bytes
    rw [if_pos hb]
  · intro hb hdec
    unfold classify_image_bytes
    rw [if_neg hb, hdec]
  · intro ls hls hall
    have hnl : normalize_labels labels = .error "labels não pode ser vazio" := by
      rw [hls]
      exact normalize_labels_all_blank ls hall
    refine ⟨hnl, ?_⟩
    intro hb img hdec
    unfold classify_image_bytes
    rw [if_neg hb, hdec]
    unfold classify_pil
    rw [hnl]

/-- Witness for C8: the three validation failures on concrete inputs —
empty bytes, undecodable bytes, and an all-blank label set. -/
theorem classify_validation_errors_witness :
    classify_image_bytes ⟨"m", 1, fun _ => [1], fun ls => ls.map fun _ => [1]⟩
        ⟨⟨true, [], fun _ => none, fun _ => none, fun _ => none⟩,
          fun _ => none⟩
        [] (some ["cat"]) 0 none none none none none "d" none "" (.error ())
      = .error "Nenhum conteúdo de imagem recebido." ∧
    classify_image_bytes ⟨"m", 1, fun _ => [1], fun ls => ls.map fun _ => [1]⟩
        ⟨⟨true, [], fun _ => none, fun _ => none, fun _ => none⟩,
          fun _ => none⟩
        [0] (some ["cat"]) 0 none none none none none "d" none "" (.error ())
      = .error "Upload inválido: conteúdo não reconhecido como imagem." ∧
    classify_image_bytes ⟨"m", 1, fun _ => [1], fun ls => ls.map fun _ => [1]⟩
        ⟨⟨true, [], fun _ => none, fun _ => none, fun _ => none⟩,
          fun _ => none⟩
        [0] (some ["  "]) 0 none none none none none "d" (some ⟨0⟩) ""
        (.error ())
      = .error "labels não pode ser vazio" := by
  refine ⟨?_, ?_, ?_⟩
  · exact (classify_validation_errors _ _ [] (some ["cat"]) 0 none none none
      none none "d" none "" (.error ())).1 rfl
  · exact (classify_validation_errors _ _ [0] (some ["cat"]) 0 none none none
      none none "d" none "" (.error ())).2.1 (by decide) rfl
  · exact ((classify_validation_errors _ _ [0] (some ["  "]) 0 none none none
      none none "d" (some ⟨0⟩) "" (.error ())).2.2 ["  "] rfl
      (by decide)).2 (by decide) ⟨0⟩ rfl

theorem pyLower_eq_empty_iff (s : String) : pyLower s = "" ↔ s = "" := by
  constructor
  · intro hmap
    have hdata : (pyLower s).data = [] := by rw [hmap]
    unfold pyLower at hdata
    rcases s with ⟨data⟩
    simp only [List.map_eq_nil_iff] at hdata
    rw [hdata]
  · intro hs
    rw [hs]
    rfl

theorem clip_get_image_embedding_logs_get (M : ClipModel) (C : CState)
    (image : PILImage) (h : String) (aid : Option String) (hne : h ≠ "") :
    StoreEvent.getImageEmb h M.model_name
      ∈ (clip_get_image_embedding M C image (some h) aid).2.2 := by
  unfold clip_get_image_embedding
  simp only [Option.getD_some]
  rw [if_pos ⟨rfl, hne⟩]
  rcases C.store.get_image_embedding h M.model_name with _ | cached
  · simp
  · simp only
    by_cases hlen : cached.length > 0
    · rw [if_pos hlen]
      simp
    · rw [if_neg hlen]
      simp

theorem find_similar_ok_excludes (store : Store) (q : List ℝ)
    (model : String) (thr : ℝ) (lim scan : ℤ) (h : String)
    (out : List SimilarHit) (hne : h ≠ "")
    (hok : find_similar_images store q model thr lim scan (some h)
      = .ok out) :
    ∀ e ∈ out, e.image_hash ≠ h := by
  obtain ⟨hits, hout, hprop⟩ :=
    find_similar_images_ok_shape store q model thr lim scan (some h) out hok
  subst hout
  intro e he
  have he2 : e ∈ hits :=
    (mem_sortDescKey _ _ _).mp (List.mem_of_mem_take he)
  obtain ⟨row, _, h1, _, _, hsrc, _, _⟩ := hprop e he2
  rw [h1]
  exact hsrc hne

theorem classify_pil_hash_spec (M : ClipModel) (C : CState)
    (image : PILImage) (labels : Option (List String)) (nthr : ℝ)
    (h : String) (aid : Option String) (theme : Option String)
    (sthr : Option ℝ) (slim : Option ℤ) (key : String)
    (remote : Except Unit (Option JObj)) (hne : h ≠ "") :
    ∀ out, classify_pil M C image labels nthr (some h) aid theme sthr slim
        key remote = .ok out →
      out.payload.image_hash = some h ∧
      StoreEvent.getImageEmb h M.model_name ∈ out.events ∧
      (normalize_theme theme ≠ "" →
        StoreEvent.getAffinity h (normalize_theme theme) ∈ out.events) ∧
      ∀ e ∈ out.payload.similar_images, e.image_hash ≠ h := by
  intro out hout
  have hget := clip_get_image_embedding_logs_get M C image h aid hne
  have hada : (ENABLE_ADAPTIVE_SCORING && (h != "") &&
      (normalize_theme theme != "")) = true ∨
      normalize_theme theme = "" := by
    by_cases hth : normalize_theme theme = ""
    · exact Or.inr hth
    · exact Or.inl (by simp [ENABLE_ADAPTIVE_SCORING, hne, hth])
  unfold classify_pil at hout
  simp only [Option.getD_some] at hout
  split at hout
  · cases hout
  · split at hout
    · cases hout
    · split at hout
      · split at hout
        · cases hout
        · rename_i sims hfs
          cases hout
          refine ⟨rfl, ?_, ?_, ?_⟩
          · exact List.mem_append_left _ (List.mem_append_left _
              (List.mem_append_left _ (List.mem_append_left _ hget)))
          · intro hth
            rcases hada with hada | hada
            · rw [hada]
              simp [List.mem_append]
            · exact absurd hada hth
          · exact find_similar_ok_excludes _ _ _ _ _ _ _ _ hne hfs
      · cases hout
        refine ⟨rfl, ?_, ?_, ?_⟩
        · exact List.mem_append_left _ (List.mem_append_left _
            (List.mem_append_left _ hget))
        · intro hth
          rcases hada with hada | hada
          · rw [hada]
            simp [List.mem_append]
          · exact absurd hada hth
        · simp

/-- C9 (amended): when the caller supplies an `asset_sha256` that is
non-blank — non-empty after trimming, the amendment: a whitespace-only
value is truthy in Python yet strips to `""`, making the code fall back
to the digest — the image hash used by the whole call is the trimmed,
lowercased `asset_sha256`, not the content digest: the result does not
depend on the digest at all, the embedding-cache read is keyed by that
hash, the feedback lookup (when a theme is given) is keyed by it, the
similarity results exclude it, and the returned payload reports it. -/
theorem classify_asset_sha256_used (M : ClipModel) (C : CState)
    (image_bytes : List ℕ) (labels : Option (List String)) (nthr : ℝ)
    (aid : Option String) (s : String) (theme : Option String)
    (sthr : Option ℝ) (slim : Option ℤ) (digest : String)
    (decoded : Option PILImage) (key : String)
    (remote : Except Unit (Option JObj)) (hs : pyStrip s ≠ "") :
    (∀ d2 : String,
      classify_image_bytes M C image_bytes labels nthr aid (some s) theme
          sthr slim digest decoded key remote
        = classify_image_bytes M C image_bytes labels nthr aid (some s)
            theme sthr slim d2 decoded key remote) ∧
    (∀ out, classify_image_bytes M C image_bytes labels nthr aid (some s)
          theme sthr slim digest decoded key remote = .ok out →
      out.payload.image_hash = some (pyLower (pyStrip s)) ∧
      StoreEvent.getImageEmb (pyLower (pyStrip s)) M.model_name
        ∈ out.events ∧
      (normalize_theme theme ≠ "" →
        StoreEvent.getAffinity (pyLower (pyStrip s)) (normalize_theme theme)
          ∈ out.events) ∧
      ∀ e ∈ out.payload.similar_images,
        e.image_hash ≠ pyLower (pyStrip s)) := by
  have hsne : s ≠ "" := by
    intro hcon
    apply hs
    rw [hcon]
    rfl
  have hpre : pyLower (pyStrip s) ≠ "" := by
    intro hcon
    exact hs ((pyLower_eq_empty_iff (pyStrip s)).mp hcon)
  constructor
  · intro d2
    unfold classify_image_bytes
    by_cases hb : image_bytes = []
    · rw [if_pos hb, if_pos hb]
    · rw [if_neg hb, if_neg hb]
      simp only [if_neg hsne, if_neg hpre]
  · intro out hout
    unfold classify_image_bytes at hout
    by_cases hb : image_bytes = []
    · rw [if_pos hb] at hout
      cases hout
    · rw [if_neg hb] at hout
      simp only [if_neg hsne, if_neg hpre] at hout
      rcases decoded with _ | img
      · simp only at hout
        cases hout
      · simp only at hout
        exact classify_pil_hash_spec M C img labels nthr
          (pyLower (pyStrip s)) aid theme sthr slim key remote hpre out hout

/-- Witness for C9 at a concrete call with `asset_sha256 = "H"`. -/
theorem classify_asset_sha256_used_witness :
    (∀ d2 : String,
      classify_image_bytes
          ⟨"m", 1, fun _ => [1], fun ls => ls.map fun _ => [1]⟩
          ⟨⟨true, [], fun _ => none, fun _ => none, fun _ => none⟩,
            fun _ => none⟩
          [0] (some ["cat"]) 0 none (some "H") none none none "d"
          (some ⟨0⟩) "" (.error ())
        = classify_image_bytes
            ⟨"m", 1, fun _ => [1], fun ls => ls.map fun _ => [1]⟩
            ⟨⟨true, [], fun _ => none, fun _ => none, fun _ => none⟩,
              fun _ => none⟩
            [0] (some ["cat"]) 0 none (some "H") none none none d2
            (some ⟨0⟩) "" (.error ())) ∧
    (∀ out, classify_image_bytes
          ⟨"m", 1, fun _ => [1], fun ls => ls.map fun _ => [1]⟩
          ⟨⟨true, [], fun _ => none, fun _ => none, fun _ => none⟩,
            fun _ => none⟩
          [0] (some ["cat"]) 0 none (some "H") none none none "d"
          (some ⟨0⟩) "" (.error ()) = .ok out →
      out.payload.image_hash = some (pyLower (pyStrip "H")) ∧
      StoreEvent.getImageEmb (pyLower (pyStrip "H")) "m" ∈ out.events ∧
      (normalize_theme none ≠ "" →
        StoreEvent.getAffinity (pyLower (pyStrip "H")) (normalize_theme none)
          ∈ out.events) ∧
      ∀ e ∈ out.payload.similar_images,
        e.image_hash ≠ pyLower (pyStrip "H")) :=
  classify_asset_sha256_used
    ⟨"m", 1, fun _ => [1], fun ls => ls.map fun _ => [1]⟩
    ⟨⟨true, [], fun _ => none, fun _ => none, fun _ => none⟩, fun _ => none⟩
    [0] (some ["cat"]) 0 none "H" none none none "d" (some ⟨0⟩) ""
    (.error ()) (by decide)

/-- Image hash reported by a successful classification (used to state
the C9 counterexample concretely). -/
noncomputable def okImageHash (r : Except String ClassifyOut) :
    Option String :=
  match r with
  | .ok o => o.payload.image_hash
  | .error _ => none

/-- Counterexample to C9 as literally stated: `asset_sha256 = " "` is a
non-empty argument, yet the hash used (and reported) is the content
digest `"d"`, not the trimmed-lowercased supplied value `""` — the code
treats a value that strips to the empty string as absent. -/
theorem classify_whitespace_asset_cex :
    (" " : String) ≠ "" ∧
    okImageHash
        (classify_image_bytes
          ⟨"m", 1, fun _ => [1], fun ls => ls.map fun _ => [1]⟩
          ⟨⟨true, [], fun _ => none, fun _ => none, fun _ => none⟩,
            fun _ => none⟩
          [0] (some ["cat"]) 0 none (some " ") none none none "d"
          (some ⟨0⟩) "" (.error ()))
      = some "d" ∧
    ("d" : String) ≠ pyLower (pyStrip " ") := by
  refine ⟨by decide, ?_, by decide⟩
  rfl

end OmniZap
